import Mathlib

/-!
Shallow embedding of the For-You subsystem of the read-api repository
(src/controllers/forYouController.js): persona sanitization, subreddit
reputation (blocks and penalties), feed assembly, triage recording and
report generation, together with proofs about the claims of the
specification.

Numbers: JS numbers are modelled as exact rationals (`Rat`) where fractional
arithmetic occurs and as `Int`/`Nat` where the program only ever holds
integers.  JS `Array.prototype.sort` is modelled by a structurally recursive
stable sort: ECMA requires sort to be stable and consistent with the
comparison function, which determines the output uniquely, so any stable
sort is an exact model.
-/

namespace ReadApi

/-! ## Basic data model (src/prisma schema, forYouController.js) -/

/-- The three triage actions stored in `CuratedPost.action`
(`SAVED`, `ALREADY_READ`, `NOT_INTERESTED`). -/
inductive TriageAction where
  | saved
  | alreadyRead
  | notInterested
deriving DecidableEq

/-- One `CuratedPost` row of a user (a triage record): the decision recorded
for one reddit post id.  Denormalized metadata other than the subreddit is
irrelevant to the claims and omitted. -/
structure TriageRecord where
  redditPostId : String
  subreddit : String
  action : TriageAction
deriving DecidableEq

/-- One `UserBlockedSubreddit` row: explicit block state of (user, subreddit). -/
structure BlockRecord where
  subreddit : String
  isActive : Bool
  blockCount : Nat
deriving DecidableEq

/-- A stored persona subreddit affinity: `(name, weight)`. -/
structure Affinity where
  name : String
  weight : Rat
deriving DecidableEq

/-! ## Persona sanitization (refreshPersona, forYouController.js 1256-1269) -/

/-- The result of applying JS `Number(...)` to a JSON field: either an exact
numeric value or `NaN` (missing field, non-numeric string, and so on). -/
inductive JsNumber where
  | val (q : Rat)
  | nan
deriving DecidableEq

/-- JS `x || d` applied to the result of `Number(...)`: `NaN` and `0` are
falsy and give the default `d`. -/
def jsOrDefault (n : JsNumber) (d : Rat) : Rat :=
  match n with
  | .val q => if q = 0 then d else q
  | .nan => d

/-- One entry of `parsed.subredditAffinities` as the code reads it:
`name` is `String(a.name || '')` and `weight` is the JS number `Number(a.weight)`. -/
structure RawAffinity where
  name : String
  weight : JsNumber
deriving DecidableEq

/-- `String.replace(/^r\//, '')`: drop a single leading "r/" when present. -/
def stripRSlash (s : String) : String :=
  match s.data with
  | 'r' :: '/' :: rest => String.mk rest
  | _ => s

/-- forYouController.js 1263-1266: sanitize one affinity entry,
`name: String(a.name || '').replace(/^r\//, '')` and
`weight: Math.min(1, Math.max(0, Number(a.weight) || 0.5))`. -/
def sanitizeAffinity (a : RawAffinity) : Affinity :=
  { name := stripRSlash a.name
    weight := min 1 (max 0 (jsOrDefault a.weight (1/2))) }

/-- The shape of the JSON object produced by `JSON.parse` on the LLM response,
as far as refreshPersona reads it.  A field is `some l` exactly when
`Array.isArray` succeeds on it. -/
structure ParsedPersona where
  keywords : Option (List String)
  topics : Option (List String)
  subredditAffinities : Option (List RawAffinity)
  contentPreferences : Option (List String)
deriving DecidableEq

/-- The validated persona payload stored by refreshPersona. -/
structure PersonaData where
  keywords : List String
  topics : List String
  subredditAffinities : List Affinity
  contentPreferences : List String
deriving DecidableEq

/-- forYouController.js 1259-1269: defensive validation of the parsed LLM
response (truncate keywords to 10, topics to 5, sanitize each affinity,
default every missing array to `[]`). -/
def sanitizePersona (p : ParsedPersona) : PersonaData :=
  { keywords := (p.keywords.getD []).take 10
    topics := (p.topics.getD []).take 5
    subredditAffinities := (p.subredditAffinities.getD []).map sanitizeAffinity
    contentPreferences := p.contentPreferences.getD [] }

/-! ## Stable descending sort (model of JS `Array.prototype.sort`) -/

/-- Insert `x` into a list sorted descending by key, after all elements of
key not below `k x` (so that a left-to-right fold is stable). -/
def insertD {α β : Type} [LinearOrder β] (k : α → β) (x : α) : List α → List α
  | [] => [x]
  | y :: t => if k x ≤ k y then y :: insertD k x t else x :: y :: t

/-- Stable sort, descending by key: the unique output of an ECMA-compliant
`Array.prototype.sort` under the comparator `(a, b) => k b - k a`. -/
def sortByKeyDesc {α β : Type} [LinearOrder β] (k : α → β) (l : List α) : List α :=
  l.foldl (fun acc x => insertD k x acc) []

/-! ## Subreddit reputation derivation (getFeed, forYouController.js 1551-1593)

The code builds a JS `Set` of hard-blocked subreddits and a JS `Map` from
subreddit to penalty multiplier by iterating first over the user's
`UserBlockedSubreddit` rows, then over the grouped `NOT_INTERESTED` counts.
The `Set` is modelled as a `List String` without duplicates in insertion
order, the `Map` as an association list whose `set` replaces in place. -/

/-- The number of `NOT_INTERESTED` triage records of the user for subreddit
`s` (the value `prisma.curatedPost.groupBy` counts at `s`). -/
def niCount (recs : List TriageRecord) (s : String) : Nat :=
  (recs.filter fun r => r.action == TriageAction.notInterested && r.subreddit == s).length

/-- Keep the first occurrence of each element (iteration order of the
distinct group keys). -/
def dedupKeepFirst (seen : List String) : List String → List String
  | [] => []
  | s :: rest =>
    if seen.contains s then dedupKeepFirst seen rest
    else s :: dedupKeepFirst (s :: seen) rest

/-- Model of the `groupBy` query at forYouController.js 1552-1559: one entry
per subreddit having at least one `NOT_INTERESTED` record, with its count. -/
def groupByNI (recs : List TriageRecord) : List (String × Nat) :=
  (dedupKeepFirst []
      ((recs.filter fun r => r.action == TriageAction.notInterested).map (·.subreddit))).map
    fun s => (s, niCount recs s)

/-- JS `Set.add`: append if not already present. -/
def addSet (l : List String) (s : String) : List String :=
  if l.contains s then l else l ++ [s]

/-- JS `Map.set`: replace the value at the key in place, else append. -/
def mapSet : List (String × Rat) → String → Rat → List (String × Rat)
  | [], k, v => [(k, v)]
  | p :: t, k, v => if p.1 == k then (k, v) :: t else p :: mapSet t k v

/-- JS `Map.get` (as an `Option`). -/
def mapGet (m : List (String × Rat)) (k : String) : Option Rat :=
  (m.find? fun p => p.1 == k).map (·.2)

/-- forYouController.js 1578: `blockCount 1 = 0.7x weight, 2 = 0.5x, 3+ = 0.3x`. -/
def penaltyFromBlockCount (c : Nat) : Rat :=
  if 3 ≤ c then 3/10 else if 2 ≤ c then 1/2 else 7/10

/-- The pair (blockedSubreddits, penalizedSubreddits) being accumulated. -/
structure RepState where
  blocked : List String
  penalties : List (String × Rat)

/-- Loop body of forYouController.js 1572-1581: an active record hard-blocks,
an inactive record with `blockCount >= 1` sets the block-count penalty. -/
def blockStep (acc : RepState) (b : BlockRecord) : RepState :=
  if b.isActive then { acc with blocked := addSet acc.blocked b.subreddit }
  else if 1 ≤ b.blockCount then
    { acc with penalties := mapSet acc.penalties b.subreddit (penaltyFromBlockCount b.blockCount) }
  else acc

/-- Loop body of forYouController.js 1584-1593: a count of 5 or more
hard-blocks; a count of 3 or more penalizes at 0.5 unless the subreddit
already carries a block-record penalty. -/
def niStep (acc : RepState) (sc : String × Nat) : RepState :=
  if 5 ≤ sc.2 then { acc with blocked := addSet acc.blocked sc.1 }
  else if 3 ≤ sc.2 && !(acc.penalties.any fun p => p.1 == sc.1) then
    { acc with penalties := mapSet acc.penalties sc.1 (1/2) }
  else acc

/-- The reputation state the feed assembler derives for a user
(forYouController.js 1567-1593). -/
def reputation (blocks : List BlockRecord) (recs : List TriageRecord) : RepState :=
  (groupByNI recs).foldl niStep (blocks.foldl blockStep ⟨[], []⟩)

/-- Whether the feed assembler hard-blocks subreddit `s`. -/
def isBlockedSub (blocks : List BlockRecord) (recs : List TriageRecord) (s : String) : Bool :=
  (reputation blocks recs).blocked.contains s

/-- The penalty multiplier the feed assembler applies to subreddit `s` when
sorting persona affinities: `penalizedSubreddits.get(a.name) || 1`
(forYouController.js 1610-1611). -/
def penaltyMult (blocks : List BlockRecord) (recs : List TriageRecord) (s : String) : Rat :=
  (mapGet (reputation blocks recs).penalties s).getD 1

/-! ### Pointwise characterization of the reputation state -/

/-- Whether block record `b` contributes a soft penalty for subreddit `s`
(forYouController.js 1575: inactive record with `blockCount >= 1`). -/
def softRec (s : String) (b : BlockRecord) : Bool :=
  b.subreddit == s && !b.isActive && decide (1 ≤ b.blockCount)

/-! ## Feed assembly (getFeed, forYouController.js 1506-1768) -/

/-- A raw reddit post as returned inside a listing child.  `name` is the
fullname field (the empty string models a missing/falsy `post.name`),
`over18` is `over_18`. -/
structure RPost where
  name : String
  id : String
  subreddit : String
  title : String
  score : Int
  over18 : Bool
deriving DecidableEq

/-- One `data.data.children` entry of a listing response (`kind` plus data). -/
structure RChild where
  kind : String
  data : RPost
deriving DecidableEq

/-- A fetched post tagged with `_starred` and `_subreddit`
(forYouController.js 1667-1671). -/
structure TaggedPost where
  post : RPost
  starred : Bool
  source : String
deriving DecidableEq

/-- A candidate subreddit entry of `orderedSubreddits`
(forYouController.js 1596-1630). -/
structure Cand where
  name : String
  starred : Bool
deriving DecidableEq

/-- The input state getFeed reads for a user from the store: persona
affinities (when a persona row exists with an affinity array), starred
subreddits, the already-triaged post ids, stored subscriptions, and the
reputation rows.  `curatedIds` is `curatedPosts.map(p => p.redditPostId)`
over every triage record of the user. -/
structure FeedInput where
  persona : Option (List Affinity)
  starred : List String
  curatedIds : List String
  subscriptions : List String
  triage : List TriageRecord
  blocks : List BlockRecord
deriving DecidableEq

/-- The effective sort key of a persona affinity in the candidate ordering:
`(a.weight || 0) * (penalizedSubreddits.get(a.name) || 1)`
(forYouController.js 1609-1614; a stored weight of 0 is unchanged by
`|| 0`). -/
def effWeight (blocks : List BlockRecord) (recs : List TriageRecord) (a : Affinity) : Rat :=
  a.weight * penaltyMult blocks recs a.name

/-- The persona affinity array sorted descending by penalized weight
(forYouController.js 1609-1615; stable by ECMA). -/
def sortedAffinities (blocks : List BlockRecord) (recs : List TriageRecord)
    (affs : List Affinity) : List Affinity :=
  sortByKeyDesc (effWeight blocks recs) affs

/-- One pass of the candidate-building loops (forYouController.js
1600-1630): walk the items in order, keep those whose name is neither
in the seen set nor hard-blocked, threading the seen set.  Returns the
kept items and the final seen set. -/
def pickBy {α : Type} (nameOf : α → String) (blocked : List String) (seen : List String) :
    List α → List α × List String
  | [] => ([], seen)
  | x :: rest =>
    if seen.contains (nameOf x) || blocked.contains (nameOf x) then
      pickBy nameOf blocked seen rest
    else
      let r := pickBy nameOf blocked (nameOf x :: seen) rest
      (x :: r.1, r.2)

/-- The blocked set of the feed input. -/
def blockedList (inp : FeedInput) : List String :=
  (reputation inp.blocks inp.triage).blocked

/-- The persona part of the candidate walk (empty when no persona row or no
affinity array exists). -/
def personaSorted (inp : FeedInput) : List Affinity :=
  match inp.persona with
  | some affs => sortedAffinities inp.blocks inp.triage affs
  | none => []

/-- Starred loop (forYouController.js 1600-1605). -/
def feedPart1 (inp : FeedInput) : List String × List String :=
  pickBy id (blockedList inp) [] inp.starred

/-- Persona affinity loop (forYouController.js 1608-1622). -/
def feedPart2 (inp : FeedInput) : List Affinity × List String :=
  pickBy Affinity.name (blockedList inp) (feedPart1 inp).2 (personaSorted inp)

/-- Subscription loop (forYouController.js 1625-1630). -/
def feedPart3 (inp : FeedInput) : List String × List String :=
  pickBy id (blockedList inp) (feedPart2 inp).2 inp.subscriptions

/-- The ordered, de-duplicated candidate list (forYouController.js
1596-1630): starred entries first, then sorted persona affinities, then
stored subscriptions. -/
def orderedSubreddits (inp : FeedInput) : List Cand :=
  (feedPart1 inp).1.map (fun s => { name := s, starred := true })
    ++ (feedPart2 inp).1.map (fun a => { name := a.name, starred := false })
    ++ (feedPart3 inp).1.map (fun s => { name := s, starred := false })

/-- `orderedSubreddits.slice(0, 10)` (forYouController.js 1633). -/
def subredditsToFetch (inp : FeedInput) : List Cand :=
  (orderedSubreddits inp).take 10

/-- The posts one candidate subreddit contributes (forYouController.js
1646-1677): `none` models a non-ok or failed fetch, contributing `[]`;
otherwise keep the `kind == "t3"` children, drop `over_18` posts, and tag
with the candidate. -/
def fetchChildren (f : String → Option (List RChild)) (c : Cand) : List TaggedPost :=
  match f c.name with
  | none => []
  | some children =>
    (((children.filter fun ch => ch.kind == "t3").map (·.data)).filter
        fun p => !p.over18).map
      fun p => { post := p, starred := c.starred, source := c.name }

/-- `results.flat()` over the gathered per-subreddit fetches
(forYouController.js 1679-1680; `Promise.all` keeps order). -/
def allPosts (inp : FeedInput) (f : String → Option (List RChild)) : List TaggedPost :=
  ((subredditsToFetch inp).map (fetchChildren f)).flatten

/-- `post.name || `t3_`+post.id` (forYouController.js 1694). -/
def fullnameOf (p : RPost) : String :=
  if p.name == "" then "t3_" ++ p.id else p.name

/-- Strip a leading `t3_` (forYouController.js 1696). -/
def stripT3 (s : String) : String :=
  match s.data with
  | 't' :: '3' :: '_' :: rest => String.mk rest
  | _ => s

/-- The normalized id of a fetched post used against `curatedPostIds`. -/
def normId (p : RPost) : String :=
  stripT3 (fullnameOf p)

/-- Exclusion of already-triaged posts (forYouController.js 1693-1702): only
the FETCHED id is normalized; stored ids are matched verbatim. -/
def filteredPosts (inp : FeedInput) (f : String → Option (List RChild)) : List TaggedPost :=
  (allPosts inp f).filter fun tp => !(inp.curatedIds.contains (normId tp.post))

/-- The ranking key `(post.score || 0) * (starred ? 2.0 : 1.0)`
(forYouController.js 1706-1711). -/
def effScore (tp : TaggedPost) : Int :=
  tp.post.score * (if tp.starred then 2 else 1)

/-- The filtered posts sorted descending by boosted score (stable). -/
def rankedPosts (inp : FeedInput) (f : String → Option (List RChild)) : List TaggedPost :=
  sortByKeyDesc effScore (filteredPosts inp f)

/-- One post of the response payload (forYouController.js 1715-1733;
fields irrelevant to the claims omitted). -/
structure FeedPost where
  id : String
  redditPostId : String
  subreddit : String
  title : String
  score : Int
deriving DecidableEq

def toFeedPost (tp : TaggedPost) : FeedPost :=
  { id := tp.post.id
    redditPostId := normId tp.post
    subreddit := tp.post.subreddit
    title := tp.post.title
    score := tp.post.score }

/-- `filteredPosts.slice(0, TOP_N)` mapped to the response shape. -/
def topPosts (inp : FeedInput) (f : String → Option (List RChild)) : List FeedPost :=
  ((rankedPosts inp f).take 25).map toFeedPost

/-- Recommended subreddits (forYouController.js 1735-1743): persona
affinities not among the returned posts' subreddits and not starred, first
five, in stored persona order. -/
def recommendedSubreddits (inp : FeedInput) (f : String → Option (List RChild)) : List String :=
  match inp.persona with
  | some affs =>
    ((affs.filter fun a =>
        !(((topPosts inp f).map (·.subreddit)).contains a.name)
          && !(inp.starred.contains a.name)).take 5).map (·.name)
  | none => []

/-- The assembled feed response (posts, recommendations, diagnostics)
(forYouController.js 1745-1754). -/
structure FeedResponse where
  posts : List FeedPost
  recommendedSubreddits : List String
  totalFetched : Nat
  totalFiltered : Nat
  subredditsFetched : Nat
  starredCount : Nat
deriving DecidableEq

def assembleFeed (inp : FeedInput) (f : String → Option (List RChild)) : FeedResponse :=
  { posts := topPosts inp f
    recommendedSubreddits := recommendedSubreddits inp f
    totalFetched := (allPosts inp f).length
    totalFiltered := (filteredPosts inp f).length
    subredditsFetched := (subredditsToFetch inp).length
    starredCount := inp.starred.length }

/-! ## Per-user persistent state and the stateful operations -/

/-- The standing report row (`ForYouReport`): `generatedAtMs` is the epoch
millisecond timestamp of `generatedAt`. -/
structure ReportRec where
  model : String
  postCount : Nat
  content : String
  generatedAtMs : Int
deriving DecidableEq

/-- Everything the store holds for one user that the For-You operations
read and write. -/
structure UserState where
  persona : Option (List Affinity)
  starred : List String
  subscriptions : List String
  triage : List TriageRecord
  blocks : List BlockRecord
  cachedFeed : Option FeedResponse
  report : Option ReportRec
deriving DecidableEq

/-- The feed input getFeed loads from a user state (forYouController.js
1526-1565): `curatedIds` is the id of every triage record, any action. -/
def feedInputOf (st : UserState) : FeedInput :=
  { persona := st.persona
    starred := st.starred
    curatedIds := st.triage.map (·.redditPostId)
    subscriptions := st.subscriptions
    triage := st.triage
    blocks := st.blocks }

/-- GET /api/foryou/feed (forYouController.js 1506-1768): serve the cached
snapshot unless `?refresh=true`; otherwise assemble, cache and return. -/
def getFeed (st : UserState) (forceRefresh : Bool) (f : String → Option (List RChild)) :
    FeedResponse × UserState :=
  match st.cachedFeed, forceRefresh with
  | some cached, false => (cached, st)
  | _, _ =>
    let resp := assembleFeed (feedInputOf st) f
    (resp, { st with cachedFeed := some resp })

/-! ## Triage recorder (recordAction, forYouController.js 842-954) -/

/-- Post metadata fetched from the Post Source by id (fields the new record
denormalizes; only the subreddit matters to the claims). -/
structure PostMeta where
  subreddit : String
deriving DecidableEq

/-- Outcome of the `/by_id/` metadata fetch: a non-ok response, or an ok
response whose first child may be missing. -/
inductive ByIdResult where
  | httpError
  | ok (post : Option PostMeta)
deriving DecidableEq

/-- The error responses of the modelled endpoints: 400 and 500. -/
inductive ApiError where
  | badRequest
  | internal
deriving DecidableEq

/-- `validActions` (forYouController.js 857) with the `toUpperCase`
storage mapping (905, 915). -/
def parseAction : String → Option TriageAction
  | "saved" => some TriageAction.saved
  | "already_read" => some TriageAction.alreadyRead
  | "not_interested" => some TriageAction.notInterested
  | _ => none

/-- The count of SAVED triage records (forYouController.js 932-938). -/
def savedCount (st : UserState) : Nat :=
  (st.triage.filter fun r => r.action == TriageAction.saved).length

/-- POST /api/foryou/action (forYouController.js 842-954).  Returns the
response and the updated state.  Existing record: update its action.  No
record: create one only when the metadata fetch is ok and carries a post.
Always recount SAVED and clear the cached feed before answering.  The
reddit-side save call has no effect on stored state. -/
def recordAction (st : UserState) (redditPostId : String) (action : String)
    (fetchRes : ByIdResult) : Except ApiError (Bool × Nat) × UserState :=
  if redditPostId == "" then (Except.error ApiError.badRequest, st)
  else
    match parseAction action with
    | none => (Except.error ApiError.badRequest, st)
    | some act =>
      let triage1 :=
        match st.triage.find? (fun r => r.redditPostId == redditPostId) with
        | some _ =>
          st.triage.map fun r =>
            if r.redditPostId == redditPostId then { r with action := act } else r
        | none =>
          match fetchRes with
          | ByIdResult.httpError => st.triage
          | ByIdResult.ok none => st.triage
          | ByIdResult.ok (some meta) =>
            st.triage ++ [{ redditPostId := redditPostId, subreddit := meta.subreddit,
                            action := act }]
      let st1 : UserState := { st with triage := triage1 }
      (Except.ok (true, savedCount st1), { st1 with cachedFeed := none })

/-! ## Report generator (generateReport, forYouController.js 1307-1465) -/

/-- `(Date.now() - generatedAt) / (1000 * 60 * 60)` as an exact rational. -/
def hoursSince (nowMs tMs : Int) : Rat :=
  ((nowMs - tMs : Int) : Rat) / (1000 * 60 * 60)

/-- The 18-hour bulk reset (forYouController.js 1326-1337): delete the
user's ALREADY_READ and NOT_INTERESTED triage records and deactivate the
active explicit blocks (blockCount untouched). -/
def staleReset (st : UserState) : UserState :=
  { st with
    triage := st.triage.filter fun r =>
      !(r.action == TriageAction.alreadyRead || r.action == TriageAction.notInterested)
    blocks := st.blocks.map fun b =>
      if b.isActive then { b with isActive := false } else b }

/-- The state generateReport proceeds on after the staleness check
(forYouController.js 1318-1340): reset only when a standing report exists
and is older than 18 hours. -/
def reportPreState (nowMs : Int) (st : UserState) : UserState :=
  match st.report with
  | some r => if 18 < hoursSince nowMs r.generatedAtMs then staleReset st else st
  | none => st

/-- The model allow-list (forYouController.js 1344). -/
def validModels : List String := ["gpt-4o-mini", "gpt-4o", "gpt-5.2"]

/-- POST /api/foryou/report/generate (forYouController.js 1307-1465).
`llmContent` stands for the digest text produced (the mock digest when no
credential is configured, else the LLM response).  Returns the response and
the final state. -/
def generateReport (nowMs : Int) (st : UserState) (selectedModel : String)
    (llmContent : String) : Except ApiError (String × Nat) × UserState :=
  let st1 := reportPreState nowMs st
  let model := if validModels.contains selectedModel then selectedModel else "gpt-4o-mini"
  let savedPosts := st1.triage.filter fun r => r.action == TriageAction.saved
  if savedPosts.isEmpty then (Except.error ApiError.badRequest, st1)
  else
    let st2 : UserState :=
      { st1 with
        report := some { model := model, postCount := savedPosts.length,
                         content := llmContent, generatedAtMs := nowMs }
        triage := st1.triage.map fun r =>
          if r.action == TriageAction.saved then { r with action := TriageAction.alreadyRead }
          else r
        cachedFeed := none }
    (Except.ok (llmContent, savedPosts.length), st2)

/-! ## Persona builder (refreshPersona, forYouController.js 1120-1305) -/

/-- A saved post as sampled for persona analysis. -/
structure SavedPost where
  subreddit : String
  title : String
deriving DecidableEq

/-- How the summarization step went: no credential configured, the API call
threw, the response had no content, or content was returned and
`JSON.parse` either threw (`parsed = none`) or produced an object. -/
inductive LlmPersonaOutcome where
  | noKey
  | callFailed
  | emptyContent
  | content (parsed : Option ParsedPersona)
deriving DecidableEq

/-- The subreddit frequency histogram over the analysis sample
(forYouController.js 1161-1165), keys in first-occurrence order. -/
def subredditHistogram (posts : List SavedPost) : List (String × Nat) :=
  (dedupKeepFirst [] (posts.map (·.subreddit))).map fun s =>
    (s, (posts.filter fun p => p.subreddit == s).length)

/-- The deterministic fallback persona used when no LLM credential is
configured (forYouController.js 1196-1205): histogram entries sorted by
count descending, top 10, weight `min(1, count / 5)`. -/
def mockPersona (posts : List SavedPost) : PersonaData :=
  { keywords := ["reddit", "saved posts"]
    topics := ["General Interest"]
    subredditAffinities :=
      ((sortByKeyDesc (fun sc => (sc.2 : Int)) (subredditHistogram posts)).take 10).map
        fun sc => { name := sc.1, weight := min 1 ((sc.2 : Rat) / 5) }
    contentPreferences := ["discussions"] }

/-- The stored `UserPersona` row. -/
structure PersonaRecord where
  data : PersonaData
  analyzedPostCount : Nat
deriving DecidableEq

/-- The refreshPersona failure modes: 502 when the saved-posts fetch is not
ok, 400 when it returns no posts, 500 from the catch-all handler. -/
inductive RefreshError where
  | upstreamFailed
  | noContent
  | internalError
deriving DecidableEq

/-- POST /api/foryou/persona/refresh (forYouController.js 1120-1305).
`savedFetch` is the saved-posts fetch result (`none` models a non-ok
response).  Takes the stored persona slot and returns the response plus the
new slot.  An exception anywhere inside the try block (LLM call failure,
empty content, `JSON.parse` failure) reaches the catch-all and answers a
500 with no store write. -/
def refreshPersona (savedFetch : Option (List SavedPost)) (llm : LlmPersonaOutcome)
    (persona0 : Option PersonaRecord) :
    Except RefreshError PersonaRecord × Option PersonaRecord :=
  match savedFetch with
  | none => (Except.error RefreshError.upstreamFailed, persona0)
  | some posts =>
    if posts.isEmpty then (Except.error RefreshError.noContent, persona0)
    else
      let sample := posts.take 30
      match llm with
      | LlmPersonaOutcome.noKey =>
        let pr : PersonaRecord := { data := mockPersona sample,
                                    analyzedPostCount := sample.length }
        (Except.ok pr, some pr)
      | LlmPersonaOutcome.callFailed => (Except.error RefreshError.internalError, persona0)
      | LlmPersonaOutcome.emptyContent => (Except.error RefreshError.internalError, persona0)
      | LlmPersonaOutcome.content none => (Except.error RefreshError.internalError, persona0)
      | LlmPersonaOutcome.content (some parsed) =>
        let pr : PersonaRecord := { data := sanitizePersona parsed,
                                    analyzedPostCount := sample.length }
        (Except.ok pr, some pr)

/-! ## Helper lemmas about the candidate walk and the fetch stage -/

/-- A concrete user state for the report claims: zero SAVED records, one
NOT_INTERESTED record, and a standing report generated at epoch 0. -/
def c9State : UserState :=
  { persona := none, starred := [], subscriptions := [],
    triage := [{ redditPostId := "p1", subreddit := "politics",
                 action := TriageAction.notInterested }],
    blocks := [], cachedFeed := none,
    report := some { model := "gpt-4o-mini", postCount := 1, content := "old",
                     generatedAtMs := 0 } }

/-- A concrete user state for the hard-block claims: five subreddit-level
NOT_INTERESTED dismissals of r/politics, r/politics both starred and in the
persona affinities with weight 0.95. -/
def c2State : UserState :=
  { persona := some [{ name := "politics", weight := 19/20 }],
    starred := ["politics", "news"],
    subscriptions := [],
    triage :=
      [{ redditPostId := "subreddit_dismiss_politics_1", subreddit := "politics",
         action := TriageAction.notInterested },
       { redditPostId := "subreddit_dismiss_politics_2", subreddit := "politics",
         action := TriageAction.notInterested },
       { redditPostId := "subreddit_dismiss_politics_3", subreddit := "politics",
         action := TriageAction.notInterested },
       { redditPostId := "subreddit_dismiss_politics_4", subreddit := "politics",
         action := TriageAction.notInterested },
       { redditPostId := "subreddit_dismiss_politics_5", subreddit := "politics",
         action := TriageAction.notInterested }],
    blocks := [], cachedFeed := none, report := none }

/-- A concrete fetched post in r/news. -/
def c2Post : RPost :=
  { name := "t3_n1", id := "n1", subreddit := "news", title := "hello",
    score := 10, over18 := false }

/-- A concrete Post Source: r/news serves one post, everything else fails. -/
def c2Fetch : String → Option (List RChild) := fun sub =>
  if sub == "news" then some [{ kind := "t3", data := c2Post }] else none

/-- A concrete feed input for the reputation-rule claims: one inactive
block record for r/cats with blockCount 1, and five NOT_INTERESTED records
for r/politics. -/
def c1Inp : FeedInput :=
  { persona := some [{ name := "cats", weight := 1 }],
    starred := [], curatedIds := [], subscriptions := [],
    triage := c2State.triage,
    blocks := [{ subreddit := "cats", isActive := false, blockCount := 1 }] }

/-- A concrete fetched post whose fullname keeps the `t3_` prefix. -/
def c4Post : RPost :=
  { name := "t3_abc", id := "abc", subreddit := "s", title := "t",
    score := 1, over18 := false }

/-- A concrete feed input whose stored triaged id kept the `t3_` prefix. -/
def c4Inp : FeedInput :=
  { persona := none, starred := ["s"], curatedIds := ["t3_abc"],
    subscriptions := [], triage := [], blocks := [] }

/-- A concrete Post Source serving `c4Post` in r/s. -/
def c4Fetch : String → Option (List RChild) := fun sub =>
  if sub == "s" then some [{ kind := "t3", data := c4Post }] else none

/-- A concrete feed input whose persona affinities are stored in ascending
weight order. -/
def c6Inp : FeedInput :=
  { persona := some [{ name := "aaa", weight := 1/5 }, { name := "bbb", weight := 9/10 }],
    starred := [], curatedIds := [], subscriptions := [], triage := [], blocks := [] }

/-- A Post Source on which every fetch fails. -/
def c6Fetch : String → Option (List RChild) := fun _ => none

/-! ## Proofs -/

theorem insertD_perm {α β : Type} [LinearOrder β] (k : α → β) (x : α) :
    ∀ l : List α, List.Perm (insertD k x l) (x :: l) := by
  intro l
  induction l with
  | nil => simp [insertD]
  | cons y t ih =>
    by_cases hxy : k x ≤ k y
    · simp only [insertD, if_pos hxy]
      exact (ih.cons y).trans (List.Perm.swap x y t)
    · simp only [insertD, if_neg hxy]
      exact List.Perm.refl _

theorem sortByKeyDesc_perm {α β : Type} [LinearOrder β] (k : α → β) (l : List α) :
    List.Perm (sortByKeyDesc k l) l := by
  suffices h : ∀ (l acc : List α), List.Perm (l.foldl (fun acc x => insertD k x acc) acc) (acc ++ l) by
    simpa using h l []
  intro l
  induction l with
  | nil => intro acc; simp
  | cons x t ih =>
    intro acc
    simp only [List.foldl_cons]
    refine (ih (insertD k x acc)).trans ?_
    refine (((insertD_perm k x acc).append_right t).trans ?_)
    exact List.perm_middle.symm

theorem insertD_pairwise {α β : Type} [LinearOrder β] (k : α → β) (x : α)
    (l : List α) (h : l.Pairwise (fun a b => k b ≤ k a)) :
    (insertD k x l).Pairwise (fun a b => k b ≤ k a) := by
  induction l with
  | nil => simp [insertD]
  | cons y t ih =>
    rcases h with _ | ⟨hy, ht⟩
    by_cases hxy : k x ≤ k y
    · simp only [insertD, if_pos hxy]
      refine List.Pairwise.cons ?_ (ih ht)
      intro b hb
      have hb' := (insertD_perm k x t).mem_iff.mp hb
      rcases List.mem_cons.mp hb' with rfl | hbt
      · exact hxy
      · exact hy b hbt
    · simp only [insertD, if_neg hxy]
      refine List.Pairwise.cons ?_ (List.Pairwise.cons hy ht)
      intro b hb
      rcases List.mem_cons.mp hb with rfl | hbt
      · exact le_of_lt (lt_of_not_le hxy)
      · exact le_trans (hy b hbt) (le_of_lt (lt_of_not_le hxy))

theorem sortByKeyDesc_pairwise {α β : Type} [LinearOrder β] (k : α → β) (l : List α) :
    (sortByKeyDesc k l).Pairwise (fun a b => k b ≤ k a) := by
  suffices h : ∀ (l acc : List α), acc.Pairwise (fun a b => k b ≤ k a) →
      (l.foldl (fun acc x => insertD k x acc) acc).Pairwise (fun a b => k b ≤ k a) by
    exact h l [] (List.Pairwise.nil)
  intro l
  induction l with
  | nil => intro acc hacc; simpa using hacc
  | cons x t ih =>
    intro acc hacc
    simp only [List.foldl_cons]
    exact ih _ (insertD_pairwise k x acc hacc)

theorem mapGet_mapSet (m : List (String × Rat)) (k k' : String) (v : Rat) :
    mapGet (mapSet m k v) k' = if k' = k then some v else mapGet m k' := by
  induction m with
  | nil =>
    by_cases h : k' = k
    · simp [mapSet, mapGet, List.find?, h]
    · have hk : (k == k') = false := by
        simp only [beq_eq_false_iff_ne, ne_eq]
        exact fun e => h e.symm
      simp [mapSet, mapGet, List.find?, hk, h]
  | cons p t ih =>
    by_cases hpk : p.1 = k
    · have hb : (p.1 == k) = true := by simp [hpk]
      by_cases h : k' = k
      · simp [mapSet, mapGet, List.find?, hb, h]
      · have hkk : (k == k') = false := by
          simp only [beq_eq_false_iff_ne, ne_eq]
          exact fun e => h e.symm
        have hp : (p.1 == k') = false := by
          simp only [beq_eq_false_iff_ne, ne_eq, hpk]
          exact fun e => h e.symm
        simp [mapSet, mapGet, List.find?, hb, hkk, hp, h]
    · have hb : (p.1 == k) = false := by simp [hpk]
      by_cases hpk' : p.1 = k'
      · have h : ¬k' = k := fun e => hpk (by rw [hpk', e])
        have hp : (p.1 == k') = true := by simp [hpk']
        simp [mapSet, mapGet, List.find?, hb, hp, h]
      · have hp : (p.1 == k') = false := by simp [hpk']
        simpa [mapSet, mapGet, List.find?, hb, hp] using ih

theorem mapGet_isSome_iff_any (m : List (String × Rat)) (k : String) :
    (mapGet m k).isSome = m.any (fun p => p.1 == k) := by
  induction m with
  | nil => simp [mapGet]
  | cons p t ih =>
    by_cases hpk : p.1 = k
    · simp [mapGet, List.find?, hpk]
    · have hp : (p.1 == k) = false := by simp [hpk]
      simp only [mapGet, List.find?, hp, List.any_cons, Bool.false_or]
      simpa [mapGet] using ih

theorem mem_addSet (l : List String) (s t : String) :
    t ∈ addSet l s ↔ t ∈ l ∨ t = s := by
  by_cases h : l.contains s
  · have hs : s ∈ l := by simpa using h
    simp only [addSet, if_pos h]
    constructor
    · exact Or.inl
    · rintro (h' | rfl)
      · exact h'
      · exact hs
  · have hs : s ∉ l := by simpa using h
    simp [addSet, hs, List.mem_append]

/-- `blockStep` and `niStep` never remove elements from the blocked set and
never change it except through `addSet`; the two lemmas below give the exact
contents of the set after each pass. -/
theorem blocked_blockStep (acc : RepState) (b : BlockRecord) (s : String) :
    s ∈ (blockStep acc b).blocked ↔
      s ∈ acc.blocked ∨ (b.subreddit = s ∧ b.isActive = true) := by
  by_cases hact : b.isActive
  · simp [blockStep, hact, mem_addSet, eq_comm]
  · simp only [blockStep, if_neg hact]
    split
    · simp [hact]
    · simp [hact]

theorem blocked_after_blockPass (bs : List BlockRecord) (acc : RepState) (s : String) :
    s ∈ (bs.foldl blockStep acc).blocked ↔
      s ∈ acc.blocked ∨ ∃ b ∈ bs, b.subreddit = s ∧ b.isActive = true := by
  induction bs generalizing acc with
  | nil => simp
  | cons b t ih =>
    simp only [List.foldl_cons, ih, blocked_blockStep, List.mem_cons]
    constructor
    · rintro ((h | h) | ⟨b', hb', hs⟩)
      · exact Or.inl h
      · exact Or.inr ⟨b, Or.inl rfl, h⟩
      · exact Or.inr ⟨b', Or.inr hb', hs⟩
    · rintro (h | ⟨b', (rfl | hb'), hs⟩)
      · exact Or.inl (Or.inl h)
      · exact Or.inl (Or.inr hs)
      · exact Or.inr ⟨b', hb', hs⟩

theorem blocked_niStep (acc : RepState) (sc : String × Nat) (s : String) :
    s ∈ (niStep acc sc).blocked ↔
      s ∈ acc.blocked ∨ (sc.1 = s ∧ 5 ≤ sc.2) := by
  by_cases h5 : 5 ≤ sc.2
  · simp [niStep, h5, mem_addSet, eq_comm]
  · simp only [niStep, if_neg h5]
    split
    · simp [h5]
    · simp [h5]

theorem blocked_after_niPass (l : List (String × Nat)) (acc : RepState) (s : String) :
    s ∈ (l.foldl niStep acc).blocked ↔
      s ∈ acc.blocked ∨ ∃ sc ∈ l, sc.1 = s ∧ 5 ≤ sc.2 := by
  induction l generalizing acc with
  | nil => simp
  | cons sc t ih =>
    simp only [List.foldl_cons, ih, blocked_niStep, List.mem_cons]
    constructor
    · rintro ((h | h) | ⟨sc', hsc', hs⟩)
      · exact Or.inl h
      · exact Or.inr ⟨sc, Or.inl rfl, h⟩
      · exact Or.inr ⟨sc', Or.inr hsc', hs⟩
    · rintro (h | ⟨sc', (rfl | hsc'), hs⟩)
      · exact Or.inl (Or.inl h)
      · exact Or.inl (Or.inr hs)
      · exact Or.inr ⟨sc', hsc', hs⟩

theorem mem_dedupKeepFirst (l : List String) (seen : List String) (s : String) :
    s ∈ dedupKeepFirst seen l ↔ s ∈ l ∧ s ∉ seen := by
  induction l generalizing seen with
  | nil => simp [dedupKeepFirst]
  | cons t rest ih =>
    by_cases hts : seen.contains t
    · have ht : t ∈ seen := by simpa using hts
      simp only [dedupKeepFirst, if_pos hts, ih, List.mem_cons]
      constructor
      · rintro ⟨hmem, hns⟩
        exact ⟨Or.inr hmem, hns⟩
      · rintro ⟨hmem | hmem, hns⟩
        · exact absurd (hmem ▸ ht) hns
        · exact ⟨hmem, hns⟩
    · have ht : t ∉ seen := by simpa using hts
      simp only [dedupKeepFirst, if_neg hts, List.mem_cons, ih]
      constructor
      · rintro (rfl | ⟨hmem, hns⟩)
        · exact ⟨Or.inl rfl, ht⟩
        · exact ⟨Or.inr hmem, fun hsn => hns (Or.inr hsn)⟩
      · rintro ⟨rfl | hmem, hns⟩
        · exact Or.inl rfl
        · by_cases hst : s = t
          · exact Or.inl hst
          · exact Or.inr ⟨hmem, fun hsn => hsn.elim (fun e => hst e) (fun e => hns e)⟩

theorem mem_groupByNI (recs : List TriageRecord) (sc : String × Nat) :
    sc ∈ groupByNI recs ↔
      1 ≤ niCount recs sc.1 ∧ sc.2 = niCount recs sc.1 := by
  constructor
  · intro h
    rcases List.mem_map.mp h with ⟨s, hs, rfl⟩
    have hmem := (mem_dedupKeepFirst _ _ _).mp hs
    rcases List.mem_map.mp hmem.1 with ⟨r, hr, rfl⟩
    have hrf := List.mem_filter.mp hr
    refine ⟨?_, rfl⟩
    have : r ∈ recs.filter
        fun r' => r'.action == TriageAction.notInterested && r'.subreddit == r.subreddit := by
      refine List.mem_filter.mpr ⟨hrf.1, ?_⟩
      have hb := hrf.2
      simp only [Bool.and_eq_true, beq_iff_eq] at hb
      simp [hb]
    have hlen := List.length_pos_of_mem this
    simpa [niCount] using hlen
  · rintro ⟨h1, h2⟩
    have : ∃ r ∈ recs, r.action = TriageAction.notInterested ∧ r.subreddit = sc.1 := by
      by_contra hnone
      push_neg at hnone
      have : recs.filter
          (fun r => r.action == TriageAction.notInterested && r.subreddit == sc.1) = [] := by
        refine List.filter_eq_nil_iff.mpr ?_
        intro r hr
        intro hb
        simp only [Bool.and_eq_true, beq_iff_eq] at hb
        exact absurd hb.2 (hnone r hr hb.1)
      simp [niCount, this] at h1
    rcases this with ⟨r, hr, hact, hsub⟩
    refine List.mem_map.mpr ⟨sc.1, ?_, ?_⟩
    · refine (mem_dedupKeepFirst _ _ _).mpr ⟨?_, by simp⟩
      refine List.mem_map.mpr ⟨r, ?_, hsub⟩
      refine List.mem_filter.mpr ⟨hr, by simp [hact]⟩
    · cases sc with
      | mk a b => simp only at h2; simp [h2]

/-- Hard-block decision, pointwise: a subreddit is in the blocked set exactly
when it has an active explicit block record or at least five
`NOT_INTERESTED` triage records. -/
theorem isBlockedSub_iff (blocks : List BlockRecord) (recs : List TriageRecord) (s : String) :
    isBlockedSub blocks recs s = true ↔
      (∃ b ∈ blocks, b.subreddit = s ∧ b.isActive = true) ∨ 5 ≤ niCount recs s := by
  have hcontains : isBlockedSub blocks recs s = true ↔ s ∈ (reputation blocks recs).blocked := by
    simp [isBlockedSub]
  rw [hcontains]
  simp only [reputation, blocked_after_niPass, blocked_after_blockPass]
  constructor
  · rintro ((h | h) | ⟨sc, hsc, rfl, h5⟩)
    · simp at h
    · exact Or.inl h
    · have := (mem_groupByNI recs sc).mp hsc
      exact Or.inr (this.2 ▸ h5)
  · rintro (h | h5)
    · exact Or.inl (Or.inr h)
    · refine Or.inr ⟨(s, niCount recs s), ?_, rfl, h5⟩
      exact (mem_groupByNI recs (s, niCount recs s)).mpr ⟨le_trans (by norm_num) h5, rfl⟩

theorem penalties_blockStep_get (acc : RepState) (b : BlockRecord) (s : String) :
    mapGet ((blockStep acc b).penalties) s =
      if softRec s b then some (penaltyFromBlockCount b.blockCount)
      else mapGet acc.penalties s := by
  by_cases hact : b.isActive
  · simp [blockStep, hact, softRec]
  · by_cases hc : 1 ≤ b.blockCount
    · simp only [blockStep, if_neg hact, if_pos hc]
      rw [mapGet_mapSet]
      by_cases hsub : b.subreddit = s
      · simp [softRec, hact, hc, hsub]
      · have h1 : ¬s = b.subreddit := fun e => hsub e.symm
        simp [softRec, hact, hc, hsub, h1]
    · simp [blockStep, hact, hc, softRec]

theorem penalties_after_blockPass (bs : List BlockRecord) (acc : RepState) (s : String) :
    mapGet ((bs.foldl blockStep acc).penalties) s =
      match (bs.filter (softRec s)).getLast? with
      | some b => some (penaltyFromBlockCount b.blockCount)
      | none => mapGet acc.penalties s := by
  induction bs generalizing acc with
  | nil => simp
  | cons b t ih =>
    simp only [List.foldl_cons, ih]
    by_cases hb : softRec s b
    · rw [List.filter_cons_of_pos hb]
      cases hlast : (t.filter (softRec s)).getLast? with
      | some b' => simp [List.getLast?_cons, hlast]
      | none =>
        have ht : t.filter (softRec s) = [] := by simpa using hlast
        simp [ht, List.getLast?_cons, hlast, penalties_blockStep_get, hb]
    · rw [List.filter_cons_of_neg hb]
      cases hlast : (t.filter (softRec s)).getLast? <;>
        simp [hlast, penalties_blockStep_get, hb]

theorem penalties_niStep_get (acc : RepState) (sc : String × Nat) (s : String) :
    mapGet ((niStep acc sc).penalties) s =
      if sc.1 = s ∧ 3 ≤ sc.2 ∧ sc.2 < 5 ∧ mapGet acc.penalties s = none then some (1/2)
      else mapGet acc.penalties s := by
  by_cases h5 : 5 ≤ sc.2
  · have : ¬sc.2 < 5 := by omega
    simp [niStep, h5, this]
  · simp only [niStep, if_neg h5]
    by_cases h3 : 3 ≤ sc.2
    · by_cases hhas : (acc.penalties.any fun p => p.1 == sc.1) = true
      · have hsome : (mapGet acc.penalties sc.1).isSome = true := by
          rw [mapGet_isSome_iff_any]; exact hhas
        have hcond : ¬(sc.1 = s ∧ 3 ≤ sc.2 ∧ sc.2 < 5 ∧ mapGet acc.penalties s = none) := by
          rintro ⟨rfl, -, -, hnone⟩
          rw [hnone] at hsome
          simp at hsome
        simp [hhas, hcond]
      · have hnone : mapGet acc.penalties sc.1 = none := by
          rcases h : mapGet acc.penalties sc.1 with _ | v
          · rfl
          · exact absurd (by rw [← mapGet_isSome_iff_any, h]; rfl) hhas
        have hanyf : (acc.penalties.any fun p => p.1 == sc.1) = false := by
          rcases hany : (acc.penalties.any fun p => p.1 == sc.1) with _ | _
          · rfl
          · exact absurd hany hhas
        have hhas' : (3 ≤ sc.2 && !(acc.penalties.any fun p => p.1 == sc.1)) = true := by
          simp only [Bool.and_eq_true, Bool.not_eq_true', hanyf, and_true]
          simpa using h3
        simp only [hhas', if_true]
        rw [mapGet_mapSet]
        have h45 : sc.2 < 5 := by omega
        by_cases hsub : sc.1 = s
        · subst hsub
          simp [h3, h45, hnone]
        · have h1 : ¬s = sc.1 := fun e => hsub e.symm
          simp [h1, hsub]
    · have hf : (3 ≤ sc.2 && !(acc.penalties.any fun p => p.1 == sc.1)) = false := by
        simp only [Bool.and_eq_false_iff]
        left
        simpa using h3
      simp [hf, h3]

theorem penalties_after_niPass (l : List (String × Nat)) (acc : RepState) (s : String) :
    mapGet ((l.foldl niStep acc).penalties) s =
      (mapGet acc.penalties s).or
        (if ∃ sc ∈ l, sc.1 = s ∧ 3 ≤ sc.2 ∧ sc.2 < 5 then some (1/2) else none) := by
  induction l generalizing acc with
  | nil => simp
  | cons sc t ih =>
    simp only [List.foldl_cons, ih, penalties_niStep_get]
    by_cases hcond : sc.1 = s ∧ 3 ≤ sc.2 ∧ sc.2 < 5 ∧ mapGet acc.penalties s = none
    · have hex : ∃ x ∈ sc :: t, x.1 = s ∧ 3 ≤ x.2 ∧ x.2 < 5 := ⟨sc, by simp, hcond.1, hcond.2.1, hcond.2.2.1⟩
      simp [hcond, hcond.2.2.2, hex]
    · simp only [if_neg hcond]
      rcases hacc : mapGet acc.penalties s with _ | v
      · have hiff : (∃ x ∈ sc :: t, x.1 = s ∧ 3 ≤ x.2 ∧ x.2 < 5) ↔
            (∃ x ∈ t, x.1 = s ∧ 3 ≤ x.2 ∧ x.2 < 5) := by
          constructor
          · rintro ⟨x, hx, hprop⟩
            rcases List.mem_cons.mp hx with rfl | hxt
            · exact absurd ⟨hprop.1, hprop.2.1, hprop.2.2, hacc⟩ hcond
            · exact ⟨x, hxt, hprop⟩
          · rintro ⟨x, hxt, hprop⟩
            exact ⟨x, List.mem_cons.mpr (Or.inr hxt), hprop⟩
        simp only [Option.none_or]
        exact if_congr hiff.symm rfl rfl
      · simp [Option.or]

/-- The penalty multiplier, pointwise: the last soft block record wins;
otherwise a `NOT_INTERESTED` count in `[3, 5)` gives 0.5; otherwise 1
(forYouController.js 1567-1593 and 1610-1611). -/
theorem penaltyMult_eq (blocks : List BlockRecord) (recs : List TriageRecord) (s : String) :
    penaltyMult blocks recs s =
      match (blocks.filter (softRec s)).getLast? with
      | some b => penaltyFromBlockCount b.blockCount
      | none => if 3 ≤ niCount recs s ∧ niCount recs s < 5 then 1/2 else 1 := by
  unfold penaltyMult reputation
  rw [penalties_after_niPass, penalties_after_blockPass]
  have hiff : (∃ sc ∈ groupByNI recs, sc.1 = s ∧ 3 ≤ sc.2 ∧ sc.2 < 5) ↔
      (3 ≤ niCount recs s ∧ niCount recs s < 5) := by
    constructor
    · rintro ⟨sc, hsc, rfl, h3, h5⟩
      have := (mem_groupByNI recs sc).mp hsc
      omega
    · rintro ⟨h3, h5⟩
      refine ⟨(s, niCount recs s), ?_, rfl, h3, h5⟩
      exact (mem_groupByNI recs (s, niCount recs s)).mpr ⟨le_trans (by norm_num) h3, rfl⟩
  cases hlast : (blocks.filter (softRec s)).getLast? with
  | some b => simp [Option.or]
  | none =>
    simp only [mapGet]
    by_cases hni : 3 ≤ niCount recs s ∧ niCount recs s < 5
    · simp [hiff, hni, Option.or]
    · simp [hiff, hni, Option.or]

theorem pickBy_sublist {α : Type} (nameOf : α → String) (blocked : List String) :
    ∀ (l : List α) (seen : List String), List.Sublist (pickBy nameOf blocked seen l).1 l := by
  intro l
  induction l with
  | nil => intro seen; simp [pickBy]
  | cons x rest ih =>
    intro seen
    by_cases h : (seen.contains (nameOf x) || blocked.contains (nameOf x)) = true
    · simp only [pickBy, if_pos h]
      exact (ih seen).cons x
    · simp only [pickBy, if_neg h]
      exact (ih (nameOf x :: seen)).cons₂ x

theorem pickBy_not_blocked {α : Type} (nameOf : α → String) (blocked : List String) :
    ∀ (l : List α) (seen : List String) (x : α), x ∈ (pickBy nameOf blocked seen l).1 →
      blocked.contains (nameOf x) = false := by
  intro l
  induction l with
  | nil => intro seen x hx; simp [pickBy] at hx
  | cons y rest ih =>
    intro seen x hx
    by_cases h : (seen.contains (nameOf y) || blocked.contains (nameOf y)) = true
    · simp only [pickBy, if_pos h] at hx
      exact ih seen x hx
    · simp only [pickBy, if_neg h] at hx
      rcases List.mem_cons.mp hx with rfl | hmem
      · simp only [Bool.or_eq_true, not_or, Bool.not_eq_true] at h
        exact h.2
      · exact ih (nameOf y :: seen) x hmem

/-- Every candidate the feed fetches avoids the hard-blocked set. -/
theorem orderedSubreddits_not_blocked (inp : FeedInput) (c : Cand)
    (hc : c ∈ orderedSubreddits inp) : (blockedList inp).contains c.name = false := by
  simp only [orderedSubreddits, List.mem_append, List.mem_map] at hc
  rcases hc with (⟨s, hs, rfl⟩ | ⟨a, ha, rfl⟩) | ⟨s, hs, rfl⟩
  · exact pickBy_not_blocked id (blockedList inp) inp.starred [] s hs
  · exact pickBy_not_blocked Affinity.name (blockedList inp) (personaSorted inp)
      (feedPart1 inp).2 a ha
  · exact pickBy_not_blocked id (blockedList inp) inp.subscriptions (feedPart2 inp).2 s hs

theorem mem_allPosts_iff (inp : FeedInput) (f : String → Option (List RChild))
    (tp : TaggedPost) :
    tp ∈ allPosts inp f ↔ ∃ c ∈ subredditsToFetch inp, tp ∈ fetchChildren f c := by
  simp only [allPosts, List.mem_flatten, List.mem_map]
  constructor
  · rintro ⟨l, ⟨c, hc, rfl⟩, htp⟩
    exact ⟨c, hc, htp⟩
  · rintro ⟨c, hc, htp⟩
    exact ⟨fetchChildren f c, ⟨c, hc, rfl⟩, htp⟩

theorem mem_fetchChildren (f : String → Option (List RChild)) (c : Cand) (tp : TaggedPost)
    (h : tp ∈ fetchChildren f c) :
    ∃ children, f c.name = some children ∧
      (∃ ch ∈ children, ch.kind = "t3" ∧ ch.data = tp.post) ∧
      tp.post.over18 = false ∧ tp.source = c.name ∧ tp.starred = c.starred := by
  rcases hf : f c.name with _ | children
  · simp [fetchChildren, hf] at h
  · simp only [fetchChildren, hf, List.mem_map, List.mem_filter] at h
    rcases h with ⟨p, ⟨hp, hover⟩, rfl⟩
    rcases hp with ⟨ch, ⟨hchmem, hchkind⟩, rfl⟩
    refine ⟨children, rfl, ⟨ch, hchmem, by simpa using hchkind, rfl⟩, ?_, rfl, rfl⟩
    simpa using hover

/-- Posts surviving the triage filter are exactly the fetched ones whose
normalized id is not among the stored ids. -/
theorem mem_filteredPosts_iff (inp : FeedInput) (f : String → Option (List RChild))
    (tp : TaggedPost) :
    tp ∈ filteredPosts inp f ↔
      tp ∈ allPosts inp f ∧ inp.curatedIds.contains (normId tp.post) = false := by
  simp only [filteredPosts, List.mem_filter, Bool.not_eq_true']

/-- Membership transfers through the ranking (a stable sort permutes). -/
theorem mem_rankedPosts_iff (inp : FeedInput) (f : String → Option (List RChild))
    (tp : TaggedPost) :
    tp ∈ rankedPosts inp f ↔ tp ∈ filteredPosts inp f :=
  (sortByKeyDesc_perm effScore (filteredPosts inp f)).mem_iff

/-- Every response post arises from a surviving fetched post. -/
theorem mem_topPosts (inp : FeedInput) (f : String → Option (List RChild)) (fp : FeedPost)
    (h : fp ∈ topPosts inp f) :
    ∃ tp ∈ filteredPosts inp f, fp = toFeedPost tp := by
  rcases List.mem_map.mp h with ⟨tp, htp, rfl⟩
  have : tp ∈ rankedPosts inp f := List.mem_of_mem_take htp
  exact ⟨tp, (mem_rankedPosts_iff inp f tp).mp this, rfl⟩

/-! ### C5: affinity weight sanitization (corrected) -/

/-- C5, counterexample: the claim says a numeric upstream weight is clamped
into `[0, 1]`, so a numeric 0 would store 0; but `Number(a.weight) || 0.5`
treats 0 as falsy, and the code stores 0.5 instead of the clamped 0. -/
theorem spec_c5_counterexample :
    (sanitizeAffinity { name := "x", weight := JsNumber.val 0 }).weight = 1/2
    ∧ min (1 : Rat) (max 0 0) = 0 ∧ (1 : Rat) / 2 ≠ 0 := by
  refine ⟨?_, by norm_num, by norm_num⟩
  have h1 : jsOrDefault (JsNumber.val 0) (1/2) = 1/2 := by norm_num [jsOrDefault]
  show min 1 (max 0 (jsOrDefault (JsNumber.val 0) (1/2))) = 1/2
  rw [h1]
  norm_num

/-- C5 (amended): every stored weight lies in `[0, 1]`; a NONZERO numeric
upstream value is clamped to `min 1 (max 0 q)`; a zero, missing or
non-numeric value stores 0.5; the stored name is the input name with one
leading "r/" stripped. -/
theorem spec_c5_weight_sanitization (a : RawAffinity) :
    (0 ≤ (sanitizeAffinity a).weight ∧ (sanitizeAffinity a).weight ≤ 1)
    ∧ (∀ q : Rat, a.weight = JsNumber.val q → q ≠ 0 →
        (sanitizeAffinity a).weight = min 1 (max 0 q))
    ∧ (a.weight = JsNumber.val 0 → (sanitizeAffinity a).weight = 1/2)
    ∧ (a.weight = JsNumber.nan → (sanitizeAffinity a).weight = 1/2)
    ∧ (sanitizeAffinity a).name = stripRSlash a.name
    ∧ (∀ l : List Char, a.name = String.mk ('r' :: '/' :: l) →
        (sanitizeAffinity a).name = String.mk l) := by
  refine ⟨⟨?_, ?_⟩, ?_, ?_, ?_, rfl, ?_⟩
  · exact le_min (by norm_num) (le_max_left 0 _)
  · exact min_le_left 1 _
  · intro q hq hq0
    simp [sanitizeAffinity, jsOrDefault, hq, hq0]
  · intro hq
    simp only [sanitizeAffinity, jsOrDefault, hq]
    norm_num
  · intro hq
    simp only [sanitizeAffinity, jsOrDefault, hq]
    norm_num
  · intro l hl
    simp only [sanitizeAffinity, hl]
    rfl

/-- C5 witness: a concrete out-of-range weight 1.7 stores exactly 1, and a
concrete "r/cats" name stores "cats". -/
theorem spec_c5_weight_sanitization_witness :
    (sanitizeAffinity { name := "r/cats", weight := JsNumber.val (17/10) }).weight = 1
    ∧ (sanitizeAffinity { name := "r/cats", weight := JsNumber.val (17/10) }).name = "cats" := by
  have h := spec_c5_weight_sanitization { name := "r/cats", weight := JsNumber.val (17/10) }
  constructor
  · have h17 := h.2.1 (17/10) rfl (by norm_num)
    rw [h17]
    norm_num
  · have hname := h.2.2.2.2.2 "cats".data (by rfl)
    simpa using hname

/-! ### C3: persona refresh never hard-fails on the LLM step (corrected) -/

/-- C3, counterexample: with a successful non-empty saved-posts fetch and a
failing LLM call, refreshPersona answers the 500 handler and stores
nothing, instead of degrading to the fallback persona. -/
theorem spec_c3_counterexample :
    refreshPersona (some [{ subreddit := "news", title := "t" }])
        LlmPersonaOutcome.callFailed none =
      (Except.error RefreshError.internalError, none) := by
  rfl

/-- C3 (amended): when the saved-posts fetch succeeded with a non-empty
result, an LLM call failure, an empty LLM response, or malformed JSON
surfaces an internal error and leaves the stored persona unchanged; the
deterministic fallback persona is stored (and the call succeeds) only when
no LLM credential is configured. -/
theorem spec_c3_llm_failure_surfaces (posts : List SavedPost) (llm : LlmPersonaOutcome)
    (p0 : Option PersonaRecord) (hne : posts ≠ []) :
    ((llm = LlmPersonaOutcome.callFailed ∨ llm = LlmPersonaOutcome.emptyContent ∨
        llm = LlmPersonaOutcome.content none) →
      refreshPersona (some posts) llm p0 = (Except.error RefreshError.internalError, p0))
    ∧ (llm = LlmPersonaOutcome.noKey →
        refreshPersona (some posts) llm p0 =
          (Except.ok { data := mockPersona (posts.take 30),
                       analyzedPostCount := (posts.take 30).length },
           some { data := mockPersona (posts.take 30),
                  analyzedPostCount := (posts.take 30).length })) := by
  have hemp : posts.isEmpty = false := by
    cases posts with
    | nil => exact absurd rfl hne
    | cons p t => rfl
  constructor
  · rintro (rfl | rfl | rfl) <;> simp [refreshPersona, hemp]
  · rintro rfl
    simp [refreshPersona, hemp]

/-- C3 witness: the amended theorem applied at one concrete non-empty fetch
for both the failing branch and the no-credential branch. -/
theorem spec_c3_llm_failure_surfaces_witness :
    refreshPersona (some [{ subreddit := "news", title := "t" }])
        LlmPersonaOutcome.emptyContent none =
      (Except.error RefreshError.internalError, none) := by
  have h := spec_c3_llm_failure_surfaces [{ subreddit := "news", title := "t" }]
    LlmPersonaOutcome.emptyContent none (by simp)
  exact h.1 (Or.inr (Or.inl rfl))

/-! ### C7: the 18-hour reset frame (confirmed) -/

/-- C7: when generateReport finds a standing report older than 18 hours,
the state it proceeds on keeps exactly the SAVED triage records (deleting
the ALREADY_READ and NOT_INTERESTED ones), clears the active flag of every
block record, and preserves every block record's subreddit and blockCount
together with all other state fields. -/
theorem spec_c7_stale_reset (nowMs : Int) (st : UserState) (r : ReportRec)
    (hr : st.report = some r) (hold : 18 < hoursSince nowMs r.generatedAtMs) :
    reportPreState nowMs st =
      { st with
        triage := st.triage.filter fun t => t.action == TriageAction.saved
        blocks := st.blocks.map fun b => { b with isActive := false } }
    ∧ ∀ b ∈ (reportPreState nowMs st).blocks, b.isActive = false := by
  have hpre : reportPreState nowMs st = staleReset st := by
    simp [reportPreState, hr, hold]
  have htriage : (st.triage.filter fun t =>
      !(t.action == TriageAction.alreadyRead || t.action == TriageAction.notInterested)) =
      st.triage.filter fun t => t.action == TriageAction.saved := by
    apply List.filter_congr
    intro t ht
    cases h : t.action <;> rfl
  have hblocks : (st.blocks.map fun b =>
      if b.isActive then { b with isActive := false } else b) =
      st.blocks.map fun b => { b with isActive := false } := by
    apply List.map_congr_left
    intro b hb
    by_cases h : b.isActive
    · simp [h]
    · cases b with
      | mk sub act cnt =>
        simp only at h
        simp [h]
  constructor
  · rw [hpre]
    simp only [staleReset, htriage, hblocks]
  · intro b hb
    rw [hpre] at hb
    simp only [staleReset, hblocks] at hb
    rcases List.mem_map.mp hb with ⟨b0, hb0, rfl⟩
    rfl

/-- C7 witness: a concrete 19-hour-old report; the reset deletes the
ALREADY_READ and NOT_INTERESTED records, keeps the SAVED one, and
deactivates the block while keeping its blockCount of 2. -/
theorem spec_c7_stale_reset_witness :
    reportPreState 68400001
        { persona := none, starred := [], subscriptions := [],
          triage := [{ redditPostId := "a", subreddit := "s1",
                       action := TriageAction.alreadyRead },
                     { redditPostId := "b", subreddit := "s2",
                       action := TriageAction.saved },
                     { redditPostId := "c", subreddit := "s3",
                       action := TriageAction.notInterested }],
          blocks := [{ subreddit := "s3", isActive := true, blockCount := 2 }],
          cachedFeed := none,
          report := some { model := "gpt-4o-mini", postCount := 1, content := "old",
                           generatedAtMs := 0 } } =
      { persona := none, starred := [], subscriptions := [],
        triage := [{ redditPostId := "b", subreddit := "s2",
                     action := TriageAction.saved }],
        blocks := [{ subreddit := "s3", isActive := false, blockCount := 2 }],
        cachedFeed := none,
        report := some { model := "gpt-4o-mini", postCount := 1, content := "old",
                         generatedAtMs := 0 } } := by
  have h := spec_c7_stale_reset 68400001
    { persona := none, starred := [], subscriptions := [],
      triage := [{ redditPostId := "a", subreddit := "s1",
                   action := TriageAction.alreadyRead },
                 { redditPostId := "b", subreddit := "s2",
                   action := TriageAction.saved },
                 { redditPostId := "c", subreddit := "s3",
                   action := TriageAction.notInterested }],
      blocks := [{ subreddit := "s3", isActive := true, blockCount := 2 }],
      cachedFeed := none,
      report := some { model := "gpt-4o-mini", postCount := 1, content := "old",
                       generatedAtMs := 0 } }
    { model := "gpt-4o-mini", postCount := 1, content := "old", generatedAtMs := 0 }
    rfl
    (by norm_num [hoursSince])
  rw [h.1]
  rfl

/-! ### C9: NothingToReport (corrected) -/

/-- C9, counterexample: a user with zero SAVED records but a 19-hour-old
standing report and one NOT_INTERESTED record.  generateReport rejects, but
the NOT_INTERESTED triage record has been deleted by the reset that runs
before the emptiness check, so the TriageRecords are not left unchanged. -/
theorem spec_c9_counterexample :
    (generateReport 68400001 c9State "gpt-4o-mini" "c").1 = Except.error ApiError.badRequest
    ∧ (generateReport 68400001 c9State "gpt-4o-mini" "c").2.triage = []
    ∧ c9State.triage ≠ [] := by
  have h18 : (18 : Rat) < hoursSince 68400001 0 := by norm_num [hoursSince]
  have hpre : reportPreState 68400001 c9State = staleReset c9State := by
    simp only [c9State, reportPreState]
    rw [if_pos h18]
  have hsr : staleReset c9State = { c9State with triage := [] } := by
    simp [staleReset, c9State]
  have hempty : ((reportPreState 68400001 c9State).triage.filter
      (fun r => r.action == TriageAction.saved)).isEmpty = true := by
    rw [hpre, hsr]
    rfl
  have hfinal : generateReport 68400001 c9State "gpt-4o-mini" "c"
      = (Except.error ApiError.badRequest, reportPreState 68400001 c9State) := by
    simp only [generateReport, hempty, if_true]
  refine ⟨?_, ?_, by simp [c9State]⟩
  · rw [hfinal]
  · rw [hfinal, hpre, hsr]

/-- C9 (amended): with zero SAVED triage records, generateReport rejects
with the empty-precondition failure, performs no report upsert, no
SAVED-to-ALREADY_READ transition and no cache invalidation; its only state
effect is the 18-hour reset step, which (when a stale standing report
exists) deletes ALREADY_READ/NOT_INTERESTED records and deactivates active
blocks before the rejection. -/
theorem spec_c9_nothing_to_report (nowMs : Int) (st : UserState) (m c : String)
    (hsaved : st.triage.filter (fun r => r.action == TriageAction.saved) = []) :
    (generateReport nowMs st m c).1 = Except.error ApiError.badRequest
    ∧ (generateReport nowMs st m c).2 = reportPreState nowMs st
    ∧ (reportPreState nowMs st).report = st.report
    ∧ (reportPreState nowMs st).cachedFeed = st.cachedFeed
    ∧ (reportPreState nowMs st).triage.filter (fun r => r.action == TriageAction.saved)
        = st.triage.filter (fun r => r.action == TriageAction.saved) := by
  have hcomb : ∀ t : TriageRecord,
      ((t.action == TriageAction.saved) &&
        !(t.action == TriageAction.alreadyRead || t.action == TriageAction.notInterested))
      = (t.action == TriageAction.saved) := by
    intro t; cases t.action <;> rfl
  have hs1 : (reportPreState nowMs st).triage.filter
      (fun r => r.action == TriageAction.saved)
      = st.triage.filter (fun r => r.action == TriageAction.saved) := by
    rcases hrep : st.report with _ | r
    · simp [reportPreState, hrep]
    · by_cases h18 : 18 < hoursSince nowMs r.generatedAtMs
      · simp only [reportPreState, hrep, if_pos h18, staleReset, List.filter_filter]
        exact List.filter_congr fun t ht => hcomb t
      · simp [reportPreState, hrep, h18]
  have hfields : (reportPreState nowMs st).report = st.report
      ∧ (reportPreState nowMs st).cachedFeed = st.cachedFeed := by
    rcases hrep : st.report with _ | r
    · simp [reportPreState, hrep]
    · by_cases h18 : 18 < hoursSince nowMs r.generatedAtMs
      · simp [reportPreState, hrep, h18, staleReset]
      · simp [reportPreState, hrep, h18]
  have hempty : ((reportPreState nowMs st).triage.filter
      (fun r => r.action == TriageAction.saved)).isEmpty = true := by
    rw [hs1, hsaved]
    rfl
  refine ⟨?_, ?_, hfields.1, hfields.2, by rw [hs1]⟩
  · simp [generateReport, hempty]
  · simp [generateReport, hempty]

/-- C9 witness: the amended theorem applied to the concrete state (the
rejection and the surviving-state characterization evaluate as stated). -/
theorem spec_c9_nothing_to_report_witness :
    (generateReport 68400001 c9State "gpt-4o-mini" "c").1 = Except.error ApiError.badRequest
    ∧ (generateReport 68400001 c9State "gpt-4o-mini" "c").2
        = reportPreState 68400001 c9State := by
  have h := spec_c9_nothing_to_report 68400001 c9State "gpt-4o-mini" "c" (by simp [c9State])
  exact ⟨h.1, h.2.1⟩

/-! ### C10: triage with failed metadata fetch (confirmed) -/

/-- C10: a valid triage of a post id with no existing record whose metadata
fetch fails (non-ok response or no post in the body) still answers success
with the current SAVED count, creates no triage record, invalidates the
cache, and leaves the id absent so a later triage of it is again
first-time. -/
theorem spec_c10_missing_metadata (st : UserState) (id act : String) (a : TriageAction)
    (fr : ByIdResult)
    (hid : (id == "") = false)
    (hact : parseAction act = some a)
    (hnone : st.triage.find? (fun r => r.redditPostId == id) = none)
    (hfr : fr = ByIdResult.httpError ∨ fr = ByIdResult.ok none) :
    recordAction st id act fr
      = (Except.ok (true, savedCount st), { st with cachedFeed := none })
    ∧ (recordAction st id act fr).2.triage.find? (fun r => r.redditPostId == id) = none := by
  have hmain : recordAction st id act fr
      = (Except.ok (true, savedCount st), { st with cachedFeed := none }) := by
    rcases hfr with rfl | rfl <;> simp [recordAction, hid, hact, hnone]
  exact ⟨hmain, by rw [hmain]; exact hnone⟩

/-- C10 witness: one concrete state with one SAVED record; triaging an
unknown id whose fetch returns non-ok succeeds with count 1 and changes
only the cache slot. -/
theorem spec_c10_missing_metadata_witness :
    recordAction
        { persona := none, starred := [], subscriptions := [],
          triage := [{ redditPostId := "k1", subreddit := "s",
                       action := TriageAction.saved }],
          blocks := [], cachedFeed := none, report := none }
        "zzz" "not_interested" ByIdResult.httpError
      = (Except.ok (true, 1),
         { persona := none, starred := [], subscriptions := [],
           triage := [{ redditPostId := "k1", subreddit := "s",
                        action := TriageAction.saved }],
           blocks := [], cachedFeed := none, report := none }) := by
  have h := spec_c10_missing_metadata
    { persona := none, starred := [], subscriptions := [],
      triage := [{ redditPostId := "k1", subreddit := "s",
                   action := TriageAction.saved }],
      blocks := [], cachedFeed := none, report := none }
    "zzz" "not_interested" TriageAction.notInterested ByIdResult.httpError
    (by rfl) (by rfl) (by rfl) (Or.inl rfl)
  exact h.1

/-! ### C8: cache invalidation (confirmed) -/

/-- C8: after a successful recordAction or a successful generateReport the
cached feed is cleared, and the next getFeed call without forceRefresh does
not serve a snapshot: it takes the cache-miss path, reassembling and
recaching the feed. -/
theorem spec_c8_cache_invalidation :
    (∀ (st : UserState) (id act : String) (fr : ByIdResult) (out : Bool × Nat)
        (st' : UserState) (f : String → Option (List RChild)),
      recordAction st id act fr = (Except.ok out, st') →
        st'.cachedFeed = none ∧
        getFeed st' false f = (assembleFeed (feedInputOf st') f,
          { st' with cachedFeed := some (assembleFeed (feedInputOf st') f) }))
    ∧ (∀ (nowMs : Int) (st : UserState) (m c : String) (out : String × Nat)
        (st' : UserState) (f : String → Option (List RChild)),
      generateReport nowMs st m c = (Except.ok out, st') →
        st'.cachedFeed = none ∧
        getFeed st' false f = (assembleFeed (feedInputOf st') f,
          { st' with cachedFeed := some (assembleFeed (feedInputOf st') f) })) := by
  have hfeed : ∀ (st' : UserState) (f : String → Option (List RChild)),
      st'.cachedFeed = none →
      getFeed st' false f = (assembleFeed (feedInputOf st') f,
        { st' with cachedFeed := some (assembleFeed (feedInputOf st') f) }) := by
    intro st' f hcf
    unfold getFeed
    rw [hcf]
  constructor
  · intro st id act fr out st' f h
    have hcf : st'.cachedFeed = none := by
      by_cases hid : (id == "") = true
      · simp [recordAction, hid] at h
      · rcases hact : parseAction act with _ | a
        · simp [recordAction, hid, hact] at h
        · simp only [recordAction, hid, hact, Bool.false_eq_true, if_false] at h
          have h2 := congrArg Prod.snd h
          simp only at h2
          rw [← h2]
    exact ⟨hcf, hfeed st' f hcf⟩
  · intro nowMs st m c out st' f h
    have hcf : st'.cachedFeed = none := by
      simp only [generateReport] at h
      split at h
      · exact absurd (congrArg Prod.fst h) (by simp)
      · have h2 := congrArg Prod.snd h
        simp only at h2
        rw [← h2]
    exact ⟨hcf, hfeed st' f hcf⟩

/-- C8 witness: a concrete successful recordAction, after which the state
has no cached feed and getFeed reassembles. -/
theorem spec_c8_cache_invalidation_witness :
    ({ persona := none, starred := [], subscriptions := [],
       triage := [{ redditPostId := "k1", subreddit := "s",
                    action := TriageAction.notInterested }],
       blocks := [], cachedFeed := none, report := none } : UserState).cachedFeed = none := by
  have h := spec_c8_cache_invalidation.1
    { persona := none, starred := [], subscriptions := [],
      triage := [{ redditPostId := "k1", subreddit := "s",
                   action := TriageAction.saved }],
      blocks := [], cachedFeed := none,
      report := none }
    "k1" "not_interested" ByIdResult.httpError (true, 0)
    { persona := none, starred := [], subscriptions := [],
      triage := [{ redditPostId := "k1", subreddit := "s",
                   action := TriageAction.notInterested }],
      blocks := [], cachedFeed := none, report := none }
    (fun _ => none) (by rfl)
  exact h.1

/-! ### C2: hard-block threshold (confirmed) -/

/-- C2: once a user's NOT_INTERESTED count for a subreddit reaches 5, feed
assembly excludes it from the candidate list and returns no post of it,
whatever the persona weights or starred set say (the hypothesis on `f`
states that the Post Source returns posts belonging to the subreddit it was
asked for). -/
theorem spec_c2_hard_block_threshold (st : UserState) (s : String)
    (f : String → Option (List RChild))
    (h5 : 5 ≤ niCount st.triage s)
    (hf : ∀ sub : String, ∀ ch ∈ (f sub).getD [], ch.data.subreddit = sub) :
    (∀ c ∈ subredditsToFetch (feedInputOf st), c.name ≠ s)
    ∧ ∀ fp ∈ (assembleFeed (feedInputOf st) f).posts, fp.subreddit ≠ s := by
  have hblocked : isBlockedSub (feedInputOf st).blocks (feedInputOf st).triage s = true :=
    (isBlockedSub_iff _ _ _).mpr (Or.inr h5)
  have hcand : ∀ c ∈ subredditsToFetch (feedInputOf st), c.name ≠ s := by
    intro c hc heq
    have hmem : c ∈ orderedSubreddits (feedInputOf st) := List.mem_of_mem_take hc
    have hnb := orderedSubreddits_not_blocked (feedInputOf st) c hmem
    rw [heq] at hnb
    have hthis : isBlockedSub (feedInputOf st).blocks (feedInputOf st).triage s = false := hnb
    rw [hblocked] at hthis
    exact Bool.noConfusion hthis
  refine ⟨hcand, ?_⟩
  intro fp hfp
  rcases mem_topPosts (feedInputOf st) f fp hfp with ⟨tp, htp, rfl⟩
  have hall := ((mem_filteredPosts_iff _ f tp).mp htp).1
  rcases (mem_allPosts_iff _ f tp).mp hall with ⟨c, hc, hfc⟩
  rcases mem_fetchChildren f c tp hfc with ⟨children, hfsome, ⟨ch, hchmem, _, hchdata⟩, -, -, -⟩
  have hsub : tp.post.subreddit = c.name := by
    have := hf c.name ch (by rw [hfsome]; exact hchmem)
    rw [← hchdata]
    exact this
  have hcs := hcand c hc
  show (toFeedPost tp).subreddit ≠ s
  simp only [toFeedPost]
  rw [hsub]
  exact hcs

/-- C2 witness: the concrete scenario of the spec — five dismissals of
r/politics, r/politics starred and carrying affinity weight 0.95; the one
post in the assembled feed is from r/news, not r/politics. -/
theorem spec_c2_hard_block_threshold_witness :
    ({ id := "n1", redditPostId := "n1", subreddit := "news", title := "hello",
       score := 10 } : FeedPost).subreddit ≠ "politics" := by
  have hf : ∀ sub : String, ∀ ch ∈ (c2Fetch sub).getD [], ch.data.subreddit = sub := by
    intro sub ch hch
    by_cases h : (sub == "news") = true
    · have hsub : sub = "news" := by simpa using h
      subst hsub
      have hc : c2Fetch "news" = some [{ kind := "t3", data := c2Post }] := rfl
      rw [hc] at hch
      simp only [Option.getD_some, List.mem_singleton] at hch
      rw [hch]
      rfl
    · simp [c2Fetch, h] at hch
  have h := spec_c2_hard_block_threshold c2State "politics" c2Fetch (by decide) hf
  exact h.2 _ (by decide)

/-! ### C1: reputation decision rules and affinity ordering (confirmed) -/

theorem getLast?_eq_of_all_eq {α : Type} (l : List α) (b : α) (hne : b ∈ l)
    (hall : ∀ x ∈ l, x = b) : l.getLast? = some b := by
  induction l with
  | nil => simp at hne
  | cons x t ih =>
    cases t with
    | nil =>
      have hx := hall x (by simp)
      simp [hx]
    | cons y t2 =>
      rw [List.getLast?_cons_cons]
      refine ih ?_ ?_
      · have hy := hall y (by simp)
        exact List.mem_cons.mpr (Or.inl hy.symm)
      · intro z hz
        exact hall z (List.mem_cons.mpr (Or.inr hz))

/-- C1: with at most one explicit block record per subreddit (the store's
composite-uniqueness constraint), the feed assembler derives the penalty in
priority order — active record or five NOT_INTERESTED records hard-block
and exclude the subreddit from the candidate list; otherwise an inactive
record with blockCount at least 1 gives the 0.3/0.5/0.7 multiplier;
otherwise a NOT_INTERESTED count in [3, 5) gives 0.5, else 1 — and the
persona affinity segment of the candidate list descends in weight times
that multiplier. -/
theorem spec_c1_reputation_rules (inp : FeedInput) (s : String)
    (huniq : ∀ b1 ∈ inp.blocks, ∀ b2 ∈ inp.blocks, b1.subreddit = b2.subreddit → b1 = b2) :
    (isBlockedSub inp.blocks inp.triage s = true ↔
      (∃ b ∈ inp.blocks, b.subreddit = s ∧ b.isActive = true) ∨ 5 ≤ niCount inp.triage s)
    ∧ (isBlockedSub inp.blocks inp.triage s = true →
        ∀ c ∈ orderedSubreddits inp, c.name ≠ s)
    ∧ (isBlockedSub inp.blocks inp.triage s = false →
        ∀ b ∈ inp.blocks, b.subreddit = s → b.isActive = false → 1 ≤ b.blockCount →
          penaltyMult inp.blocks inp.triage s =
            (if 3 ≤ b.blockCount then 3/10 else if 2 ≤ b.blockCount then 1/2 else 7/10))
    ∧ (isBlockedSub inp.blocks inp.triage s = false →
        (¬∃ b ∈ inp.blocks, b.subreddit = s ∧ b.isActive = false ∧ 1 ≤ b.blockCount) →
          penaltyMult inp.blocks inp.triage s =
            (if 3 ≤ niCount inp.triage s then 1/2 else 1))
    ∧ (feedPart2 inp).1.Pairwise (fun a b =>
        effWeight inp.blocks inp.triage b ≤ effWeight inp.blocks inp.triage a) := by
  refine ⟨isBlockedSub_iff inp.blocks inp.triage s, ?_, ?_, ?_, ?_⟩
  · intro hb c hc heq
    have hnb := orderedSubreddits_not_blocked inp c hc
    rw [heq] at hnb
    have hthis : isBlockedSub inp.blocks inp.triage s = false := hnb
    rw [hb] at hthis
    exact Bool.noConfusion hthis
  · intro hbf b hb hsub hact hcnt
    rw [penaltyMult_eq]
    have hsoft : softRec s b = true := by
      simp [softRec, hsub, hact, hcnt]
    have hmemf : b ∈ inp.blocks.filter (softRec s) := List.mem_filter.mpr ⟨hb, hsoft⟩
    have hall : ∀ x ∈ inp.blocks.filter (softRec s), x = b := by
      intro x hx
      have hxm := List.mem_filter.mp hx
      have hxs : x.subreddit = s := by
        have h2 := hxm.2
        simp only [softRec, Bool.and_eq_true, beq_iff_eq] at h2
        exact h2.1.1
      exact huniq x hxm.1 b hb (by rw [hxs, hsub])
    rw [getLast?_eq_of_all_eq _ b hmemf hall]
    rfl
  · intro hbf hnone
    rw [penaltyMult_eq]
    have hfil : inp.blocks.filter (softRec s) = [] := by
      rw [List.filter_eq_nil_iff]
      intro b hb hcontra
      apply hnone
      simp only [softRec, Bool.and_eq_true, beq_iff_eq, Bool.not_eq_true',
        decide_eq_true_eq] at hcontra
      exact ⟨b, hb, hcontra.1.1, hcontra.1.2, hcontra.2⟩
    rw [hfil]
    have hni5 : niCount inp.triage s < 5 := by
      by_contra hge
      push_neg at hge
      have hthis := (isBlockedSub_iff inp.blocks inp.triage s).mpr (Or.inr hge)
      rw [hbf] at hthis
      exact Bool.noConfusion hthis
    by_cases h3 : 3 ≤ niCount inp.triage s
    · simp [h3, hni5]
    · simp [h3]
  · rcases hp : inp.persona with _ | affs
    · have hnil : (feedPart2 inp).1 = [] := by
        simp [feedPart2, personaSorted, hp, pickBy]
      rw [hnil]
      exact List.Pairwise.nil
    · have hsor := sortByKeyDesc_pairwise (effWeight inp.blocks inp.triage) affs
      have hsub2 : List.Sublist (feedPart2 inp).1 (personaSorted inp) := by
        simp only [feedPart2]
        exact pickBy_sublist _ _ _ _
      have hpw : (personaSorted inp).Pairwise (fun a b =>
          effWeight inp.blocks inp.triage b ≤ effWeight inp.blocks inp.triage a) := by
        simp only [personaSorted, hp, sortedAffinities]
        exact hsor
      exact List.Pairwise.sublist hsub2 hpw

/-- C1 witness: on the concrete input, r/politics (five dismissals) is
hard-blocked while r/cats (one inactive block) is not and carries soft
multiplier 0.7. -/
theorem spec_c1_reputation_rules_witness :
    isBlockedSub c1Inp.blocks c1Inp.triage "politics" = true
    ∧ penaltyMult c1Inp.blocks c1Inp.triage "cats" = 7/10 := by
  have huniq : ∀ b1 ∈ c1Inp.blocks, ∀ b2 ∈ c1Inp.blocks,
      b1.subreddit = b2.subreddit → b1 = b2 := by decide
  have h1 := spec_c1_reputation_rules c1Inp "politics" huniq
  have h2 := spec_c1_reputation_rules c1Inp "cats" huniq
  constructor
  · exact (h1.1).mpr (Or.inr (by decide))
  · have hb : ({ subreddit := "cats", isActive := false, blockCount := 1 } : BlockRecord)
        ∈ c1Inp.blocks := by decide
    have hres := h2.2.2.1 (by decide)
      { subreddit := "cats", isActive := false, blockCount := 1 } hb rfl rfl (by decide)
    rw [hres]
    norm_num

/-! ### C4: triaged-post exclusion and id normalization (corrected) -/

/-- C4, counterexample: the stored id "t3_abc" and the fetched fullname
"t3_abc" denote the same post after stripping the prefix from both sides,
yet the post appears in the feed — the code normalizes only the fetched id
and matches the stored id verbatim. -/
theorem spec_c4_counterexample :
    (assembleFeed c4Inp c4Fetch).posts.map (·.redditPostId) = ["abc"]
    ∧ c4Inp.curatedIds = ["t3_abc"]
    ∧ stripT3 "t3_abc" = stripT3 (fullnameOf c4Post) := by
  refine ⟨by decide, rfl, rfl⟩

/-- C4 (amended): NSFW posts are excluded unconditionally, and a fetched
post is excluded exactly when its fetched id with a `t3_` prefix stripped
is among the stored triaged ids compared verbatim (no stripping on the
stored side). -/
theorem spec_c4_triage_exclusion (inp : FeedInput) (f : String → Option (List RChild)) :
    (∀ tp ∈ allPosts inp f, tp.post.over18 = false)
    ∧ (∀ tp : TaggedPost, tp ∈ filteredPosts inp f ↔
        tp ∈ allPosts inp f ∧ inp.curatedIds.contains (stripT3 (fullnameOf tp.post)) = false)
    ∧ (∀ fp ∈ (assembleFeed inp f).posts, inp.curatedIds.contains fp.redditPostId = false) := by
  refine ⟨?_, ?_, ?_⟩
  · intro tp htp
    rcases (mem_allPosts_iff inp f tp).mp htp with ⟨c, hc, hfc⟩
    rcases mem_fetchChildren f c tp hfc with ⟨children, hsome, hch, hover, hsrc, hst⟩
    exact hover
  · intro tp
    exact mem_filteredPosts_iff inp f tp
  · intro fp hfp
    rcases mem_topPosts inp f fp hfp with ⟨tp, htp, rfl⟩
    exact ((mem_filteredPosts_iff inp f tp).mp htp).2

/-- C4 witness: on the concrete input the surviving post's id "abc" is
indeed absent (verbatim) from the stored ids. -/
theorem spec_c4_triage_exclusion_witness :
    (["t3_abc"] : List String).contains "abc" = false := by
  have h := spec_c4_triage_exclusion c4Inp c4Fetch
  exact h.2.2 { id := "abc", redditPostId := "abc", subreddit := "s", title := "t", score := 1 } (by decide)

/-! ### C6: recommended subreddits (corrected) -/

/-- C6, counterexample: with stored affinities [("aaa", 0.2), ("bbb", 0.9)]
and an empty feed, the recommended list is ["aaa", "bbb"] — the stored
order, not descending weight order. -/
theorem spec_c6_counterexample :
    (assembleFeed c6Inp c6Fetch).recommendedSubreddits = ["aaa", "bbb"]
    ∧ c6Inp.persona = some [{ name := "aaa", weight := 1/5 },
                            { name := "bbb", weight := 9/10 }]
    ∧ (1 : Rat)/5 < 9/10 := by
  refine ⟨?_, rfl, by norm_num⟩
  have hpen : ∀ n : String, penaltyMult c6Inp.blocks c6Inp.triage n = 1 := fun n => rfl
  have hcmp : ¬(effWeight c6Inp.blocks c6Inp.triage { name := "bbb", weight := 9/10 } ≤
      effWeight c6Inp.blocks c6Inp.triage { name := "aaa", weight := 1/5 }) := by
    simp only [effWeight, hpen]
    norm_num
  have hsort : personaSorted c6Inp =
      [{ name := "bbb", weight := 9/10 }, { name := "aaa", weight := 1/5 }] := by
    show sortedAffinities c6Inp.blocks c6Inp.triage
        [{ name := "aaa", weight := 1/5 }, { name := "bbb", weight := 9/10 }]
      = [{ name := "bbb", weight := 9/10 }, { name := "aaa", weight := 1/5 }]
    unfold sortedAffinities sortByKeyDesc
    simp only [List.foldl_cons, List.foldl_nil, insertD]
    rw [if_neg hcmp]
  have h2 : feedPart2 c6Inp =
      ([{ name := "bbb", weight := 9/10 }, { name := "aaa", weight := 1/5 }],
       ["aaa", "bbb"]) := by
    unfold feedPart2
    rw [hsort]
    rfl
  have hsub : subredditsToFetch c6Inp =
      [{ name := "bbb", starred := false }, { name := "aaa", starred := false }] := by
    unfold subredditsToFetch orderedSubreddits feedPart3
    rw [h2]
    rfl
  show recommendedSubreddits c6Inp c6Fetch = ["aaa", "bbb"]
  unfold recommendedSubreddits topPosts rankedPosts filteredPosts allPosts
  rw [hsub]
  rfl

/-- C6 (amended): the recommended list holds at most 5 names, each the name
of a persona affinity neither among the returned posts' subreddits nor
starred, in the persona's STORED order (the first five qualifying
affinities), not re-sorted by weight. -/
theorem spec_c6_recommended (inp : FeedInput) (f : String → Option (List RChild))
    (affs : List Affinity) (hp : inp.persona = some affs) :
    (assembleFeed inp f).recommendedSubreddits.length ≤ 5
    ∧ List.Sublist (assembleFeed inp f).recommendedSubreddits (affs.map (·.name))
    ∧ ∀ n ∈ (assembleFeed inp f).recommendedSubreddits,
        (((assembleFeed inp f).posts.map (·.subreddit)).contains n = false
          ∧ inp.starred.contains n = false
          ∧ ∃ a ∈ affs, a.name = n) := by
  have hrec : (assembleFeed inp f).recommendedSubreddits =
      ((affs.filter fun a =>
          !(((topPosts inp f).map (·.subreddit)).contains a.name)
            && !(inp.starred.contains a.name)).take 5).map (·.name) := by
    show recommendedSubreddits inp f = _
    simp [recommendedSubreddits, hp]
  refine ⟨?_, ?_, ?_⟩
  · rw [hrec]
    simp only [List.length_map, List.length_take]
    omega
  · rw [hrec]
    apply List.Sublist.map
    exact (List.take_sublist 5 _).trans (List.filter_sublist _)
  · intro n hn
    rw [hrec] at hn
    rcases List.mem_map.mp hn with ⟨a, ha, rfl⟩
    have ham := List.mem_of_mem_take ha
    have hfm := List.mem_filter.mp ham
    have hcond := hfm.2
    simp only [Bool.and_eq_true, Bool.not_eq_true'] at hcond
    exact ⟨hcond.1, hcond.2, a, hfm.1, rfl⟩

/-- C6 witness: the amended bound applied at the concrete input. -/
theorem spec_c6_recommended_witness :
    (assembleFeed c6Inp c6Fetch).recommendedSubreddits.length ≤ 5 := by
  have h := spec_c6_recommended c6Inp c6Fetch
    [{ name := "aaa", weight := 1/5 }, { name := "bbb", weight := 9/10 }] rfl
  exact h.1

end ReadApi
